import Mathlib

/-!
Shallow embedding of the SafePlace core: the incident ingestion pipeline
(`OttParser.parse`, geocoding, `IncidentService.bulkInsert`) and the safety
score engine (`ScoreCalculator`, `TrendAnalyzer`, `Comparator`).

Conventions of the embedding:
* JavaScript `number` arithmetic is modelled over `ℚ` (all values that occur
  in these computations are exact decimals, so `ℚ` is faithful);
  `Math.round` is `round : ℚ → ℤ` (both round half toward +∞).
* Timestamps are minutes since the Unix epoch (`ℤ`); the code never produces
  nonzero seconds or milliseconds, so that choice of unit is lossless.
* Nullable / optional JavaScript values are `Option`; JavaScript falsiness of
  `0` and `""` is modelled explicitly where the code relies on it.
* The DOM extraction done by the cheerio library is the boundary of the
  embedding: an HTML document is given as the list of its tables, each table
  as its (trimmed) header texts and the (trimmed) cell texts of its body rows.
* `Date.prototype.toISOString` is kept as an explicit function parameter
  `toISO : ℤ → String` of the definitions that use it; every theorem below
  holds for an arbitrary such function.
-/

namespace SafePlace

/-! ## Data model -/

inductive IncidentType
  | TIROTEIO
  | DISPAROS_OUVIDOS
  | INCENDIO
  | UTILIDADE_PUBLICA
  | ARRASTAO
  | OPERACAO_POLICIAL
deriving DecidableEq, Repr

structure TimeframeIncidents where
  total : ℕ
  byType : IncidentType → ℕ
  weightedTotal : ℚ

structure RadiusIncidents where
  last30Days : TimeframeIncidents
  last90Days : TimeframeIncidents
  last365Days : TimeframeIncidents

structure AggregatedIncidents where
  radius500m : RadiusIncidents
  radius1km : RadiusIncidents
  radius2km : RadiusIncidents

/-! ## ScoreCalculator (src/lib/scoring/score-calculator.ts) -/

namespace ScoreCalculator

def BASE_SCORE : ℚ := 100

def RADIUS_WEIGHT_500 : ℚ := 1
def RADIUS_WEIGHT_1000 : ℚ := 6/10
def RADIUS_WEIGHT_2000 : ℚ := 3/10

def TIMEFRAME_WEIGHT_30 : ℚ := 1
def TIMEFRAME_WEIGHT_90 : ℚ := 6/10
def TIMEFRAME_WEIGHT_365 : ℚ := 3/10

def POINTS_PER_INCIDENT : ℚ := 2

def calculateForRadius (radiusData : RadiusIncidents) : ℤ :=
  let deduction :=
    (radiusData.last30Days.weightedTotal * TIMEFRAME_WEIGHT_30 +
      radiusData.last90Days.weightedTotal * TIMEFRAME_WEIGHT_90 +
      radiusData.last365Days.weightedTotal * TIMEFRAME_WEIGHT_365) *
    POINTS_PER_INCIDENT
  let score := max 0 (min 100 (BASE_SCORE - deduction))
  round score

def calculate (incidents : AggregatedIncidents) : ℤ :=
  let score500m : ℚ := calculateForRadius incidents.radius500m
  let score1km : ℚ := calculateForRadius incidents.radius1km
  let score2km : ℚ := calculateForRadius incidents.radius2km
  let weightedScore :=
    score500m * RADIUS_WEIGHT_500 + score1km * RADIUS_WEIGHT_1000 +
      score2km * RADIUS_WEIGHT_2000
  let totalWeight := RADIUS_WEIGHT_500 + RADIUS_WEIGHT_1000 + RADIUS_WEIGHT_2000
  let score := weightedScore / totalWeight
  round score

end ScoreCalculator

/-! ## TrendAnalyzer (src/lib/scoring/trend-analyzer.ts) -/

inductive TrendDirection
  | IMPROVING
  | STABLE
  | WORSENING
deriving DecidableEq, Repr

structure TrendAnalysis where
  direction : TrendDirection
  percentage : ℚ
  confidence : ℚ
  recent30DayCount : ℕ
  previous30DayCount : ℤ
deriving DecidableEq, Repr

namespace TrendAnalyzer

def calculatePrevious30Days (last90Total recent30 : ℕ) : ℤ :=
  round (((last90Total : ℚ) - (recent30 : ℚ)) / 2)

def calculatePercentageChange (recent : ℕ) (previous : ℤ) : ℚ :=
  if previous = 0 then
    (if recent > 0 then 100 else 0)
  else
    (((recent : ℚ) - (previous : ℚ)) / (previous : ℚ)) * 100

def determineTrendDirection (change : ℚ) : TrendDirection :=
  if change < -10 then TrendDirection.IMPROVING
  else if change > 10 then TrendDirection.WORSENING
  else TrendDirection.STABLE

def calculateConfidence (recent : ℕ) (previous : ℤ) : ℚ :=
  let totalSample := (recent : ℤ) + previous
  if totalSample ≥ 20 then 9/10
  else if totalSample ≥ 10 then 7/10
  else if totalSample ≥ 5 then 5/10
  else 3/10

def analyze (incidents : AggregatedIncidents) : TrendAnalysis :=
  let recent30 := incidents.radius1km.last30Days.total
  let previous30 := calculatePrevious30Days incidents.radius1km.last90Days.total recent30
  let change := calculatePercentageChange recent30 previous30
  { direction := determineTrendDirection change
    percentage := |change|
    confidence := calculateConfidence recent30 previous30
    recent30DayCount := recent30
    previous30DayCount := previous30 }

end TrendAnalyzer

/-! ## Comparator (src/lib/scoring/comparator.ts)

The Prisma queries are the boundary: a peer population (the `overallScore`
column of the `property_analyses` rows matching the neighborhood/city filter
and the trailing 7-day window) is given as a `List ℤ`.  `aggregate(_avg)`
returns `null` on an empty population, otherwise the arithmetic mean. -/

namespace Comparator

/-- Prisma `aggregate` with `_avg: { overallScore: true }`. -/
def avgOverallScore (scores : List ℤ) : Option ℚ :=
  if scores = [] then none
  else some ((scores.sum : ℚ) / (scores.length : ℚ))

/-- JavaScript `x || d`: both `null` and `0` are falsy and fall through to `d`. -/
def jsOrElse (x : Option ℚ) (d : ℚ) : ℚ :=
  match x with
  | none => d
  | some v => if v = 0 then d else v

def calculateNeighborhoodAverage (neighborhoodScores : List ℤ) : ℤ :=
  round (jsOrElse (avgOverallScore neighborhoodScores) 60)

def calculateCityAverage (cityScores : List ℤ) : ℤ :=
  round (jsOrElse (avgOverallScore cityScores) 60)

def calculatePercentileRank (score : ℤ) (cityScores : List ℤ) : ℤ :=
  let total := cityScores.length
  if total = 0 then 50
  else
    let lowerCount := (cityScores.filter (fun s => s < score)).length
    round (((lowerCount : ℚ) / (total : ℚ)) * 100)

end Comparator

/-! ## JavaScript string and number primitives used by the parser -/

/-- Code points of the JavaScript `\s` class that can occur in the scraped
text (space, tab, LF, CR, VT, FF, NBSP). -/
def jsIsWsCode (n : ℕ) : Bool :=
  n = 32 || n = 9 || n = 10 || n = 13 || n = 11 || n = 12 || n = 160

def jsIsWhitespace (c : Char) : Bool :=
  jsIsWsCode c.toNat

/-- Lowercased code point as produced by `String.prototype.toLowerCase` on the
ASCII and Latin-1 letters (the ranges the scraped Portuguese text uses). -/
def lowerCode (n : ℕ) : ℕ :=
  if 65 ≤ n ∧ n ≤ 90 then n + 32
  else if 192 ≤ n ∧ n ≤ 222 ∧ n ≠ 215 then n + 32
  else n

def jsToLowerChar (c : Char) : Char :=
  Char.ofNat (lowerCode c.toNat)

def jsToLower (s : String) : String :=
  String.mk (s.data.map jsToLowerChar)

/-- `String.prototype.trim` on a character list. -/
def jsTrimList (l : List Char) : List Char :=
  ((l.dropWhile jsIsWhitespace).reverse.dropWhile jsIsWhitespace).reverse

def jsTrim (s : String) : String :=
  String.mk (jsTrimList s.data)

/-- `String.prototype.split` with a single-character separator. -/
def splitOnChar (sep : Char) : List Char → List (List Char)
  | [] => [[]]
  | c :: rest =>
    if c = sep then [] :: splitOnChar sep rest
    else
      match splitOnChar sep rest with
      | [] => [[c]]
      | h :: t => (c :: h) :: t

/-- A JavaScript number as produced by `ToNumber` on a string literal:
`finite mant dscale` is the exact value `mant / 10^dscale` (every string
numeric literal denotes such a scaled decimal), `inf` a signed infinity;
`NaN` is modelled as `none` at the use sites.  Values are exact: only the
toward-zero-truncated integer part ever feeds the `Date` constructor below,
so IEEE-754 rounding could change an outcome only for literals with more
significant digits than a double holds — outside the model. -/
inductive JsNumber where
  | finite (mant : ℤ) (dscale : ℕ)
  | inf (positive : Bool)
deriving DecidableEq, Repr

/-- The rational value of a finite JavaScript number. -/
def finiteVal (mant : ℤ) (dscale : ℕ) : ℚ :=
  (mant : ℚ) / (10 : ℚ) ^ dscale

def JsNumber.neg : JsNumber → JsNumber
  | JsNumber.finite m s => JsNumber.finite (-m) s
  | JsNumber.inf b => JsNumber.inf (!b)

/-- Adding an integer constant to a JavaScript number (`year + 2000`,
`month - 1`); infinities absorb it. -/
def JsNumber.addInt : JsNumber → ℤ → JsNumber
  | JsNumber.finite m s, k => JsNumber.finite (m + k * (10 : ℤ) ^ s) s
  | JsNumber.inf b, _ => JsNumber.inf b

def decDigitsVal (ds : List Char) : ℕ :=
  ds.foldl (fun acc c => acc * 10 + (c.toNat - 48)) 0

def isHexDigitChar (c : Char) : Bool :=
  c.isDigit || ('a' ≤ c && c ≤ 'f') || ('A' ≤ c && c ≤ 'F')

def hexDigitVal (c : Char) : ℕ :=
  if c.isDigit then c.toNat - 48
  else if 'a' ≤ c ∧ c ≤ 'f' then c.toNat - 87
  else c.toNat - 55

def hexDigitsVal (ds : List Char) : ℕ :=
  ds.foldl (fun acc c => acc * 16 + hexDigitVal c) 0

def isOctDigitChar (c : Char) : Bool :=
  '0' ≤ c && c ≤ '7'

def octDigitsVal (ds : List Char) : ℕ :=
  ds.foldl (fun acc c => acc * 8 + (c.toNat - 48)) 0

def isBinDigitChar (c : Char) : Bool :=
  c = '0' || c = '1'

def binDigitsVal (ds : List Char) : ℕ :=
  ds.foldl (fun acc c => acc * 2 + (c.toNat - 48)) 0

/-- The exponent part `e±ddd` of a decimal literal. -/
def parseExponent (l : List Char) : Option ℤ :=
  match l with
  | '+' :: ds => if ds ≠ [] ∧ ds.all Char.isDigit then some (decDigitsVal ds : ℤ) else none
  | '-' :: ds => if ds ≠ [] ∧ ds.all Char.isDigit then some (-(decDigitsVal ds : ℤ)) else none
  | ds => if ds ≠ [] ∧ ds.all Char.isDigit then some (decDigitsVal ds : ℤ) else none

/-- Exact value of `intPart.fracPart · 10^exp` as a scaled decimal. -/
def decLiteralVal (intPart fracPart : List Char) (exp : ℤ) : JsNumber :=
  let mant : ℤ := (decDigitsVal intPart * 10 ^ fracPart.length + decDigitsVal fracPart : ℕ)
  if 0 ≤ exp then JsNumber.finite (mant * (10 : ℤ) ^ exp.toNat) fracPart.length
  else JsNumber.finite mant (fracPart.length + (-exp).toNat)

/-- `StrUnsignedDecimalLiteral`: `Infinity`, or decimal digits with an
optional fraction and an optional exponent (at least one digit around the
point). -/
def parseUnsignedDecimal (l : List Char) : Option JsNumber :=
  if l = "Infinity".data then some (JsNumber.inf true)
  else
    let intPart := l.takeWhile Char.isDigit
    let rest1 := l.dropWhile Char.isDigit
    match rest1 with
    | [] => if intPart = [] then none else some (decLiteralVal intPart [] 0)
    | '.' :: rest2 =>
      let fracPart := rest2.takeWhile Char.isDigit
      let rest3 := rest2.dropWhile Char.isDigit
      if intPart = [] ∧ fracPart = [] then none
      else
        match rest3 with
        | [] => some (decLiteralVal intPart fracPart 0)
        | e :: rest4 =>
          if e = 'e' ∨ e = 'E' then
            match parseExponent rest4 with
            | some exp => some (decLiteralVal intPart fracPart exp)
            | none => none
          else none
    | e :: rest2 =>
      if (e = 'e' ∨ e = 'E') ∧ intPart ≠ [] then
        match parseExponent rest2 with
        | some exp => some (decLiteralVal intPart [] exp)
        | none => none
      else none

/-- JavaScript `Number(s)` (`ToNumber` on a string): surrounding whitespace
is trimmed; the empty string is `0`; an optional sign applies to a decimal
literal or `Infinity`; unsigned `0x`/`0o`/`0b` literals are hex/octal/binary
integers; anything else is `NaN` (`none`). -/
def jsNumber (s : List Char) : Option JsNumber :=
  match jsTrimList s with
  | [] => some (JsNumber.finite 0 0)
  | '0' :: 'x' :: ds =>
    if ds ≠ [] ∧ ds.all isHexDigitChar then some (JsNumber.finite (hexDigitsVal ds) 0) else none
  | '0' :: 'X' :: ds =>
    if ds ≠ [] ∧ ds.all isHexDigitChar then some (JsNumber.finite (hexDigitsVal ds) 0) else none
  | '0' :: 'o' :: ds =>
    if ds ≠ [] ∧ ds.all isOctDigitChar then some (JsNumber.finite (octDigitsVal ds) 0) else none
  | '0' :: 'O' :: ds =>
    if ds ≠ [] ∧ ds.all isOctDigitChar then some (JsNumber.finite (octDigitsVal ds) 0) else none
  | '0' :: 'b' :: ds =>
    if ds ≠ [] ∧ ds.all isBinDigitChar then some (JsNumber.finite (binDigitsVal ds) 0) else none
  | '0' :: 'B' :: ds =>
    if ds ≠ [] ∧ ds.all isBinDigitChar then some (JsNumber.finite (binDigitsVal ds) 0) else none
  | '+' :: rest => parseUnsignedDecimal rest
  | '-' :: rest => (parseUnsignedDecimal rest).map JsNumber.neg
  | l => parseUnsignedDecimal l

/-! ## Civil calendar arithmetic (the ECMAScript `Date` constructor)

`new Date(year, month, day, hour, minute)` builds a time value by calendar
arithmetic, carrying out-of-range components into the neighbouring months,
days and hours rather than rejecting them.  `daysFromCivil`/`civilFromDays`
convert between a proleptic Gregorian date and a day number relative to
1970-01-01. -/

def daysFromCivil (y m d : ℤ) : ℤ :=
  let y := y - (if m ≤ 2 then 1 else 0)
  let era := Int.fdiv y 400
  let yoe := y - era * 400
  let mp := Int.emod (m + 9) 12
  let doy := Int.fdiv (153 * mp + 2) 5 + d - 1
  let doe := yoe * 365 + Int.fdiv yoe 4 - Int.fdiv yoe 100 + doy
  era * 146097 + doe - 719468

def civilFromDays (z : ℤ) : ℤ × ℤ × ℤ :=
  let z := z + 719468
  let era := Int.fdiv z 146097
  let doe := z - era * 146097
  let yoe := Int.fdiv (doe - Int.fdiv doe 1460 + Int.fdiv doe 36524 - Int.fdiv doe 146096) 365
  let y := yoe + era * 400
  let doy := doe - (365 * yoe + Int.fdiv yoe 4 - Int.fdiv yoe 100)
  let mp := Int.fdiv (5 * doy + 2) 153
  let d := doy - Int.fdiv (153 * mp + 2) 5 + 1
  let m := mp + (if mp < 10 then 3 else -9)
  (y + (if m ≤ 2 then 1 else 0), m, d)

/-- ECMAScript `MakeDay`: month overflow carries into the year, day overflow
carries through the day-number representation. -/
def makeDay (year month day : ℤ) : ℤ :=
  let ym := year + Int.fdiv month 12
  let mn := month - 12 * Int.fdiv month 12
  daysFromCivil ym (mn + 1) 1 + (day - 1)

/-- `ToIntegerOrInfinity` on a finite value `mant / 10^dscale`: truncation
toward zero (`Int.tdiv` truncates toward zero; `-0` becomes `0`). -/
def jsTrunc (mant : ℤ) (dscale : ℕ) : ℤ :=
  Int.tdiv mant ((10 : ℤ) ^ dscale)

/-- `new Date(year, month, day, hour, minute).getTime()` in epoch minutes:
a non-finite component makes `MakeDay`/`MakeTime` return `NaN` (`none`);
finite components are truncated toward zero; truncated years 0–99 are mapped
to 1900–1999; `TimeClip` turns a time value more than 8.64·10^15 ms
(= 1.44·10^11 minutes) away from the epoch into `NaN`. -/
def jsMakeDate (year month day hour minute : JsNumber) : Option ℤ :=
  match year, month, day, hour, minute with
  | JsNumber.finite my sy, JsNumber.finite mm sm, JsNumber.finite md sd,
      JsNumber.finite mh sh, JsNumber.finite mmi smi =>
    let yi := jsTrunc my sy
    let yr := if 0 ≤ yi ∧ yi ≤ 99 then 1900 + yi else yi
    let t := makeDay yr (jsTrunc mm sm) (jsTrunc md sd) * 1440 +
      jsTrunc mh sh * 60 + jsTrunc mmi smi
    if t.natAbs ≤ 144000000000 then some t else none
  | _, _, _, _, _ => none

/-- Civil reading of an epoch-minute timestamp, used to state what a parsed
date means. -/
structure CivilDateTime where
  year : ℤ
  month : ℤ
  day : ℤ
  hour : ℤ
  minute : ℤ
deriving DecidableEq, Repr

def civilOfEpochMinutes (t : ℤ) : CivilDateTime :=
  let days := Int.fdiv t 1440
  let rem := t - 1440 * days
  let ymd := civilFromDays days
  ⟨ymd.1, ymd.2.1, ymd.2.2, Int.fdiv rem 60, rem - 60 * Int.fdiv rem 60⟩

/-! ## RawIncident and the tabular parser (src/lib/scraper/parser.ts) -/

structure RawIncident where
  occurredAt : ℤ
  incidentType : IncidentType
  neighborhood : String
  municipality : String
  state : String
  source : String
  scrapedAt : ℤ
deriving DecidableEq, Repr

/-- A table of the scraped document, at the cheerio extraction boundary:
the trimmed `th` texts and, per `tbody` row, the trimmed `td` texts. -/
structure HtmlTable where
  headers : List String
  rows : List (List String)

namespace OttParser

/-- The five date/time components `[day, month, year, hour, minute]` exactly
as the destructuring in `parseDate` sees them: the first space-separated
field split on `/`, the second split on `:`, each run through `Number`;
a missing position is `undefined`, hence `NaN` (`none`). -/
def dateComponents (dateStr : String) : List (Option JsNumber) :=
  let parts := splitOnChar ' ' dateStr.data
  let dparts := (splitOnChar '/' ((parts.get? 0).getD [])).map jsNumber
  let tparts := (splitOnChar ':' ((parts.get? 1).getD [])).map jsNumber
  [(dparts.get? 0).getD none, (dparts.get? 1).getD none, (dparts.get? 2).getD none,
    (tparts.get? 0).getD none, (tparts.get? 1).getD none]

def parseDate (dateStr : String) : Option ℤ :=
  let parts := splitOnChar ' ' dateStr.data
  let datePart := (parts.get? 0).getD []
  let timePart := (parts.get? 1).getD []
  if datePart = [] ∨ timePart = [] then none
  else
    let comps := dateComponents dateStr
    match (comps.get? 0).getD none, (comps.get? 1).getD none, (comps.get? 2).getD none,
      (comps.get? 3).getD none, (comps.get? 4).getD none with
    | some day, some month, some year, some hour, some minute =>
      jsMakeDate (year.addInt 2000) (month.addInt (-1)) day hour minute
    | _, _, _, _, _ => none

def parseIncidentType (occurrenceStr : String) : Option IncidentType :=
  let normalized := jsTrimList (occurrenceStr.data.map jsToLowerChar)
  if normalized = "tiroteio".data then some IncidentType.TIROTEIO
  else if normalized = "disparos ouvidos".data then some IncidentType.DISPAROS_OUVIDOS
  else if normalized = "incêndio".data then some IncidentType.INCENDIO
  else if normalized = "incendio".data then some IncidentType.INCENDIO
  else if normalized = "utilidade pública".data then some IncidentType.UTILIDADE_PUBLICA
  else if normalized = "utilidade publica".data then some IncidentType.UTILIDADE_PUBLICA
  else none

def parseRow (cells : List String) (now : ℤ) : Option RawIncident :=
  let dateStr := (cells.get? 0).getD ""
  let occurrenceStr := (cells.get? 1).getD ""
  let neighborhood := (cells.get? 2).getD ""
  let municipality := (cells.get? 3).getD ""
  let state := (cells.get? 4).getD ""
  match parseDate dateStr with
  | none => none
  | some occurredAt =>
    match parseIncidentType occurrenceStr with
    | none => none
    | some incidentType =>
      some { occurredAt := occurredAt
             incidentType := incidentType
             neighborhood := jsTrim neighborhood
             municipality := jsTrim municipality
             state := jsTrim state
             source := "OTT"
             scrapedAt := now }

def tableMatches (t : HtmlTable) : Bool :=
  t.headers.contains "Ocorrência" || t.headers.contains "Ocorrencia"

def parseTableRows (rows : List (List String)) (now : ℤ) : List RawIncident :=
  match rows with
  | [] => []
  | cells :: rest =>
    if 5 ≤ cells.length then
      match parseRow cells now with
      | some incident => incident :: parseTableRows rest now
      | none => parseTableRows rest now
    else parseTableRows rest now

def parse (tables : List HtmlTable) (now : ℤ) : List RawIncident :=
  match tables with
  | [] => []
  | t :: rest =>
    if tableMatches t then parseTableRows t.rows now ++ parse rest now
    else parse rest now

end OttParser

/-! ## Geocoding (src/lib/scraper/geocoder.ts)

The provider lookup together with its process-lifetime cache is the boundary:
within one process it is a deterministic partial function from the
`(neighborhood, municipality, state)` triple to coordinates, given here as an
explicit function argument `geo`. -/

structure GeocodedIncident extends RawIncident where
  latitude : Option ℚ := none
  longitude : Option ℚ := none
deriving Repr

def batchGeocode (geo : String → String → String → Option (ℚ × ℚ))
    (incidents : List RawIncident) : List GeocodedIncident :=
  incidents.map fun incident =>
    match geo incident.neighborhood incident.municipality incident.state with
    | some loc =>
      { toRawIncident := incident, latitude := some loc.1, longitude := some loc.2 }
    | none => { toRawIncident := incident }

/-! ## IncidentService (src/services/incident-service.ts) -/

namespace IncidentService

/-- The fixed type→severity table; `scores[type] || 5` defaults any type
missing from the table (ARRASTAO) to 5. -/
def calculateSeverityScore : IncidentType → ℤ
  | IncidentType.TIROTEIO => 10
  | IncidentType.DISPAROS_OUVIDOS => 5
  | IncidentType.INCENDIO => 6
  | IncidentType.UTILIDADE_PUBLICA => 2
  | IncidentType.OPERACAO_POLICIAL => 7
  | IncidentType.ARRASTAO => 5

def incidentTypeString : IncidentType → String
  | IncidentType.TIROTEIO => "TIROTEIO"
  | IncidentType.DISPAROS_OUVIDOS => "DISPAROS_OUVIDOS"
  | IncidentType.INCENDIO => "INCENDIO"
  | IncidentType.UTILIDADE_PUBLICA => "UTILIDADE_PUBLICA"
  | IncidentType.OPERACAO_POLICIAL => "OPERACAO_POLICIAL"
  | IncidentType.ARRASTAO => "ARRASTAO"

/-- `replace(/\s+/g, '-')`: each maximal whitespace run becomes one hyphen.
The flag records whether the previous character belonged to a run. -/
def collapseWs : List Char → Bool → List Char
  | [], _ => []
  | c :: rest, inRun =>
    if jsIsWhitespace c then
      if inRun then collapseWs rest true else '-' :: collapseWs rest true
    else c :: collapseWs rest false

/-- The character class kept by `replace(/[^a-z0-9-_]/g, '')`. -/
def isAllowedChar (c : Char) : Bool :=
  ('a' ≤ c && c ≤ 'z') || ('0' ≤ c && c ≤ '9') || c = '-' || c = '_'

/-- `generateSourceId`: `[toISOString, municipality, neighborhood, type]`
joined with `_`, lowercased, whitespace runs mapped to hyphens, all other
characters outside `[a-z0-9-_]` stripped. -/
def generateSourceId (toISO : ℤ → String) (incident : GeocodedIncident) : String :=
  let joined :=
    toISO incident.occurredAt ++ "_" ++ incident.municipality ++ "_" ++
      incident.neighborhood ++ "_" ++ incidentTypeString incident.incidentType
  String.mk (((collapseWs (joined.data.map jsToLowerChar) false)).filter isAllowedChar)

/-- A row of the `incidents` table as the INSERT writes it. -/
structure StoredIncident where
  occurredAt : ℤ
  scrapedAt : ℤ
  neighborhood : String
  municipality : String
  state : String
  latitude : ℚ
  longitude : ℚ
  incidentType : IncidentType
  severityScore : ℤ
  source : String
  sourceId : String
  verified : Bool
deriving Repr

/-- `(source, source_id)` present in the store — the unique key the
`ON CONFLICT` clause consults. -/
def hasKey (store : List StoredIncident) (source sourceId : String) : Bool :=
  store.any fun r => r.source = source && r.sourceId = sourceId

/-- JavaScript truthiness of an optional coordinate: `undefined` and `0`
are both falsy. -/
def coordTruthy : Option ℚ → Bool
  | none => false
  | some v => !(v = 0 : Bool)

/-- One iteration of the `bulkInsert` loop: skip when a coordinate is falsy
(count 0); otherwise run the insert, which is a no-op on an existing
`(source, source_id)` key (`ON CONFLICT DO NOTHING` raises no error, so the
`23505` handler is unreachable for this conflict), and then increment
`insertedCount` unconditionally — the count is 1 for every coordinate-bearing
incident, duplicates included. -/
def bulkInsertStep (toISO : ℤ → String) (store : List StoredIncident)
    (incident : GeocodedIncident) : List StoredIncident × ℕ :=
  if coordTruthy incident.latitude && coordTruthy incident.longitude then
    let severityScore := calculateSeverityScore incident.incidentType
    let sourceId := generateSourceId toISO incident
    if hasKey store incident.source sourceId then (store, 1)
    else
      (store ++ [{ occurredAt := incident.occurredAt
                   scrapedAt := incident.scrapedAt
                   neighborhood := incident.neighborhood
                   municipality := incident.municipality
                   state := incident.state
                   latitude := (incident.latitude).getD 0
                   longitude := (incident.longitude).getD 0
                   incidentType := incident.incidentType
                   severityScore := severityScore
                   source := incident.source
                   sourceId := sourceId
                   verified := false }], 1)
  else (store, 0)

/-- `bulkInsert`: the loop over the batch, threading the store and counting
newly inserted rows. -/
def bulkInsert (toISO : ℤ → String) (store : List StoredIncident) :
    List GeocodedIncident → List StoredIncident × ℕ
  | [] => (store, 0)
  | incident :: rest =>
    let s1 := bulkInsertStep toISO store incident
    let s2 := bulkInsert toISO s1.1 rest
    (s2.1, s1.2 + s2.2)

end IncidentService

/-! ## Ingestion pipeline (src/lib/scraper/ott-scraper.ts, success path)

`OttScraper.scrape` fetches the page, parses it, geocodes the batch and bulk
inserts it; `recordsFound` is the parsed count and `recordsNew` the inserted
count.  The fetch and the run log are I/O at the boundary; `runIngest` is the
data path from the fetched document to the store. -/

def runIngest (toISO : ℤ → String) (geo : String → String → String → Option (ℚ × ℚ))
    (store : List IncidentService.StoredIncident) (tables : List HtmlTable)
    (now : ℤ) : List IncidentService.StoredIncident × ℕ × ℕ :=
  let rawIncidents := OttParser.parse tables now
  let geocodedIncidents := batchGeocode geo rawIncidents
  let res := IncidentService.bulkInsert toISO store geocodedIncidents
  (res.1, rawIncidents.length, res.2)

/-! ## Statement-side vocabulary -/

/-- Clamping a value into `[lo, hi]`, as `Math.max(lo, Math.min(hi, x))`. -/
def clamp (x lo hi : ℚ) : ℚ := max lo (min hi x)

/-- Cell coordinates of the 3×3 aggregation matrix. -/
inductive RadiusKey
  | r500m
  | r1km
  | r2km
deriving DecidableEq, Repr

inductive TimeframeKey
  | d30
  | d90
  | d365
deriving DecidableEq, Repr

def RadiusIncidents.timeframe (r : RadiusIncidents) : TimeframeKey → TimeframeIncidents
  | TimeframeKey.d30 => r.last30Days
  | TimeframeKey.d90 => r.last90Days
  | TimeframeKey.d365 => r.last365Days

def RadiusIncidents.setWeightedTotal (r : RadiusIncidents) (tf : TimeframeKey) (v : ℚ) :
    RadiusIncidents :=
  match tf with
  | TimeframeKey.d30 => { r with last30Days := { r.last30Days with weightedTotal := v } }
  | TimeframeKey.d90 => { r with last90Days := { r.last90Days with weightedTotal := v } }
  | TimeframeKey.d365 => { r with last365Days := { r.last365Days with weightedTotal := v } }

def AggregatedIncidents.radius (a : AggregatedIncidents) : RadiusKey → RadiusIncidents
  | RadiusKey.r500m => a.radius500m
  | RadiusKey.r1km => a.radius1km
  | RadiusKey.r2km => a.radius2km

def AggregatedIncidents.setWeightedTotal (a : AggregatedIncidents) (rk : RadiusKey)
    (tf : TimeframeKey) (v : ℚ) : AggregatedIncidents :=
  match rk with
  | RadiusKey.r500m => { a with radius500m := a.radius500m.setWeightedTotal tf v }
  | RadiusKey.r1km => { a with radius1km := a.radius1km.setWeightedTotal tf v }
  | RadiusKey.r2km => { a with radius2km := a.radius2km.setWeightedTotal tf v }

/-! ## Helper lemmas -/

theorem round_mono_rat {x y : ℚ} (h : x ≤ y) : round x ≤ round y := by
  rw [round_eq, round_eq]
  exact Int.floor_le_floor (by linarith)

theorem calculateForRadius_anti {r r' : RadiusIncidents}
    (h30 : r.last30Days.weightedTotal ≤ r'.last30Days.weightedTotal)
    (h90 : r.last90Days.weightedTotal ≤ r'.last90Days.weightedTotal)
    (h365 : r.last365Days.weightedTotal ≤ r'.last365Days.weightedTotal) :
    ScoreCalculator.calculateForRadius r' ≤ ScoreCalculator.calculateForRadius r := by
  unfold ScoreCalculator.calculateForRadius
  apply round_mono_rat
  apply max_le_max le_rfl
  apply min_le_min le_rfl
  simp only [ScoreCalculator.TIMEFRAME_WEIGHT_30, ScoreCalculator.TIMEFRAME_WEIGHT_90,
    ScoreCalculator.TIMEFRAME_WEIGHT_365, ScoreCalculator.POINTS_PER_INCIDENT,
    ScoreCalculator.BASE_SCORE]
  linarith

theorem calculate_anti {a a' : AggregatedIncidents}
    (h1 : ScoreCalculator.calculateForRadius a'.radius500m ≤
      ScoreCalculator.calculateForRadius a.radius500m)
    (h2 : ScoreCalculator.calculateForRadius a'.radius1km ≤
      ScoreCalculator.calculateForRadius a.radius1km)
    (h3 : ScoreCalculator.calculateForRadius a'.radius2km ≤
      ScoreCalculator.calculateForRadius a.radius2km) :
    ScoreCalculator.calculate a' ≤ ScoreCalculator.calculate a := by
  unfold ScoreCalculator.calculate
  apply round_mono_rat
  have c1 : ((ScoreCalculator.calculateForRadius a'.radius500m : ℚ)) ≤
      (ScoreCalculator.calculateForRadius a.radius500m : ℚ) := by exact_mod_cast h1
  have c2 : ((ScoreCalculator.calculateForRadius a'.radius1km : ℚ)) ≤
      (ScoreCalculator.calculateForRadius a.radius1km : ℚ) := by exact_mod_cast h2
  have c3 : ((ScoreCalculator.calculateForRadius a'.radius2km : ℚ)) ≤
      (ScoreCalculator.calculateForRadius a.radius2km : ℚ) := by exact_mod_cast h3
  simp only [ScoreCalculator.RADIUS_WEIGHT_500, ScoreCalculator.RADIUS_WEIGHT_1000,
    ScoreCalculator.RADIUS_WEIGHT_2000]
  rw [div_le_div_iff₀ (by norm_num) (by norm_num)]
  nlinarith

/-! ## Claims -/

/-- C3: `calculateForRadius` is the rounded clamp of
`100 − 2·(1.0·weightedTotal30 + 0.6·weightedTotal90 + 0.3·weightedTotal365)`
into `[0, 100]`; `calculate` is the rounded radius-weight-normalized average
`(score500m·1.0 + score1km·0.6 + score2km·0.3) / (1.0 + 0.6 + 0.3)` of the
three rounded per-radius scores; and both return exactly 100 when every
`weightedTotal` is 0. -/
theorem claim_C3_score_formula (r : RadiusIncidents) (a : AggregatedIncidents) :
    (ScoreCalculator.calculateForRadius r =
      round (clamp (100 - 2 * (1 * r.last30Days.weightedTotal +
        (6/10) * r.last90Days.weightedTotal + (3/10) * r.last365Days.weightedTotal)) 0 100))
    ∧ (ScoreCalculator.calculate a =
      round (((ScoreCalculator.calculateForRadius a.radius500m : ℚ) * 1 +
        (ScoreCalculator.calculateForRadius a.radius1km : ℚ) * (6/10) +
        (ScoreCalculator.calculateForRadius a.radius2km : ℚ) * (3/10)) / (1 + 6/10 + 3/10)))
    ∧ ((r.last30Days.weightedTotal = 0 ∧ r.last90Days.weightedTotal = 0 ∧
        r.last365Days.weightedTotal = 0) → ScoreCalculator.calculateForRadius r = 100)
    ∧ ((a.radius500m.last30Days.weightedTotal = 0 ∧ a.radius500m.last90Days.weightedTotal = 0 ∧
        a.radius500m.last365Days.weightedTotal = 0 ∧
        a.radius1km.last30Days.weightedTotal = 0 ∧ a.radius1km.last90Days.weightedTotal = 0 ∧
        a.radius1km.last365Days.weightedTotal = 0 ∧
        a.radius2km.last30Days.weightedTotal = 0 ∧ a.radius2km.last90Days.weightedTotal = 0 ∧
        a.radius2km.last365Days.weightedTotal = 0) → ScoreCalculator.calculate a = 100) := by
  have hradius : ∀ rr : RadiusIncidents, ScoreCalculator.calculateForRadius rr =
      round (clamp (100 - 2 * (1 * rr.last30Days.weightedTotal +
        (6/10) * rr.last90Days.weightedTotal + (3/10) * rr.last365Days.weightedTotal)) 0 100) := by
    intro rr
    unfold ScoreCalculator.calculateForRadius clamp
    simp only [ScoreCalculator.TIMEFRAME_WEIGHT_30, ScoreCalculator.TIMEFRAME_WEIGHT_90,
      ScoreCalculator.TIMEFRAME_WEIGHT_365, ScoreCalculator.POINTS_PER_INCIDENT,
      ScoreCalculator.BASE_SCORE]
    congr 2
    ring_nf
  have hzeroR : ∀ rr : RadiusIncidents,
      rr.last30Days.weightedTotal = 0 → rr.last90Days.weightedTotal = 0 →
      rr.last365Days.weightedTotal = 0 → ScoreCalculator.calculateForRadius rr = 100 := by
    intro rr e30 e90 e365
    rw [hradius rr, e30, e90, e365]
    norm_num [clamp]
  refine ⟨hradius r, ?_, ?_, ?_⟩
  · unfold ScoreCalculator.calculate
    simp only [ScoreCalculator.RADIUS_WEIGHT_500, ScoreCalculator.RADIUS_WEIGHT_1000,
      ScoreCalculator.RADIUS_WEIGHT_2000]
  · rintro ⟨e30, e90, e365⟩
    exact hzeroR r e30 e90 e365
  · rintro ⟨e1, e2, e3, e4, e5, e6, e7, e8, e9⟩
    unfold ScoreCalculator.calculate
    rw [hzeroR a.radius500m e1 e2 e3, hzeroR a.radius1km e4 e5 e6, hzeroR a.radius2km e7 e8 e9]
    norm_num [ScoreCalculator.RADIUS_WEIGHT_500, ScoreCalculator.RADIUS_WEIGHT_1000,
      ScoreCalculator.RADIUS_WEIGHT_2000]

/-- Witness for C3 at a concrete all-zero aggregation. -/
theorem claim_C3_score_formula_witness :
    ScoreCalculator.calculateForRadius
      ⟨⟨0, fun _ => 0, 0⟩, ⟨0, fun _ => 0, 0⟩, ⟨0, fun _ => 0, 0⟩⟩ = 100 ∧
    ScoreCalculator.calculate
      ⟨⟨⟨0, fun _ => 0, 0⟩, ⟨0, fun _ => 0, 0⟩, ⟨0, fun _ => 0, 0⟩⟩,
       ⟨⟨0, fun _ => 0, 0⟩, ⟨0, fun _ => 0, 0⟩, ⟨0, fun _ => 0, 0⟩⟩,
       ⟨⟨0, fun _ => 0, 0⟩, ⟨0, fun _ => 0, 0⟩, ⟨0, fun _ => 0, 0⟩⟩⟩ = 100 := by
  constructor
  · exact (claim_C3_score_formula
      ⟨⟨0, fun _ => 0, 0⟩, ⟨0, fun _ => 0, 0⟩, ⟨0, fun _ => 0, 0⟩⟩
      ⟨⟨⟨0, fun _ => 0, 0⟩, ⟨0, fun _ => 0, 0⟩, ⟨0, fun _ => 0, 0⟩⟩,
       ⟨⟨0, fun _ => 0, 0⟩, ⟨0, fun _ => 0, 0⟩, ⟨0, fun _ => 0, 0⟩⟩,
       ⟨⟨0, fun _ => 0, 0⟩, ⟨0, fun _ => 0, 0⟩, ⟨0, fun _ => 0, 0⟩⟩⟩).2.2.1
      ⟨rfl, rfl, rfl⟩
  · exact (claim_C3_score_formula
      ⟨⟨0, fun _ => 0, 0⟩, ⟨0, fun _ => 0, 0⟩, ⟨0, fun _ => 0, 0⟩⟩
      ⟨⟨⟨0, fun _ => 0, 0⟩, ⟨0, fun _ => 0, 0⟩, ⟨0, fun _ => 0, 0⟩⟩,
       ⟨⟨0, fun _ => 0, 0⟩, ⟨0, fun _ => 0, 0⟩, ⟨0, fun _ => 0, 0⟩⟩,
       ⟨⟨0, fun _ => 0, 0⟩, ⟨0, fun _ => 0, 0⟩, ⟨0, fun _ => 0, 0⟩⟩⟩).2.2.2
      ⟨rfl, rfl, rfl, rfl, rfl, rfl, rfl, rfl, rfl⟩

/-- C4: increasing the `weightedTotal` of any one cell of the aggregation
matrix, holding every other field fixed, never increases the affected
radius score nor the overall score. -/
theorem claim_C4_monotonicity (a : AggregatedIncidents) (rk : RadiusKey)
    (tf : TimeframeKey) (v : ℚ)
    (h : ((a.radius rk).timeframe tf).weightedTotal ≤ v) :
    ScoreCalculator.calculateForRadius ((a.setWeightedTotal rk tf v).radius rk) ≤
      ScoreCalculator.calculateForRadius (a.radius rk)
    ∧ ScoreCalculator.calculate (a.setWeightedTotal rk tf v) ≤ ScoreCalculator.calculate a := by
  cases rk <;> cases tf <;>
    simp only [AggregatedIncidents.radius, AggregatedIncidents.setWeightedTotal,
      RadiusIncidents.setWeightedTotal, RadiusIncidents.timeframe] at h ⊢ <;>
    refine ⟨calculateForRadius_anti ?_ ?_ ?_, calculate_anti ?_ ?_ ?_⟩ <;>
    first
      | exact le_rfl
      | exact h
      | exact calculateForRadius_anti le_rfl le_rfl h
      | exact calculateForRadius_anti le_rfl h le_rfl
      | exact calculateForRadius_anti h le_rfl le_rfl

/-- Witness for C4: raising the 500 m / 30 d `weightedTotal` from 0 to 30. -/
theorem claim_C4_monotonicity_witness :
    ScoreCalculator.calculateForRadius
      ((AggregatedIncidents.setWeightedTotal
        ⟨⟨⟨0, fun _ => 0, 0⟩, ⟨0, fun _ => 0, 0⟩, ⟨0, fun _ => 0, 0⟩⟩,
         ⟨⟨0, fun _ => 0, 0⟩, ⟨0, fun _ => 0, 0⟩, ⟨0, fun _ => 0, 0⟩⟩,
         ⟨⟨0, fun _ => 0, 0⟩, ⟨0, fun _ => 0, 0⟩, ⟨0, fun _ => 0, 0⟩⟩⟩
        RadiusKey.r500m TimeframeKey.d30 30).radius RadiusKey.r500m) ≤
      ScoreCalculator.calculateForRadius
        ((⟨⟨⟨0, fun _ => 0, 0⟩, ⟨0, fun _ => 0, 0⟩, ⟨0, fun _ => 0, 0⟩⟩,
          ⟨⟨0, fun _ => 0, 0⟩, ⟨0, fun _ => 0, 0⟩, ⟨0, fun _ => 0, 0⟩⟩,
          ⟨⟨0, fun _ => 0, 0⟩, ⟨0, fun _ => 0, 0⟩, ⟨0, fun _ => 0, 0⟩⟩⟩ :
          AggregatedIncidents).radius RadiusKey.r500m) := by
  exact (claim_C4_monotonicity
    ⟨⟨⟨0, fun _ => 0, 0⟩, ⟨0, fun _ => 0, 0⟩, ⟨0, fun _ => 0, 0⟩⟩,
     ⟨⟨0, fun _ => 0, 0⟩, ⟨0, fun _ => 0, 0⟩, ⟨0, fun _ => 0, 0⟩⟩,
     ⟨⟨0, fun _ => 0, 0⟩, ⟨0, fun _ => 0, 0⟩, ⟨0, fun _ => 0, 0⟩⟩⟩
    RadiusKey.r500m TimeframeKey.d30 30 (by decide)).1

theorem determineTrendDirection_improving (c : ℚ) :
    TrendAnalyzer.determineTrendDirection c = TrendDirection.IMPROVING ↔ c < -10 := by
  unfold TrendAnalyzer.determineTrendDirection
  split_ifs with h1 h2 <;> simp_all

theorem determineTrendDirection_worsening (c : ℚ) :
    TrendAnalyzer.determineTrendDirection c = TrendDirection.WORSENING ↔ c > 10 := by
  unfold TrendAnalyzer.determineTrendDirection
  split_ifs with h1 h2 <;> simp_all
  linarith

theorem determineTrendDirection_stable (c : ℚ) :
    TrendAnalyzer.determineTrendDirection c = TrendDirection.STABLE ↔ (-10 ≤ c ∧ c ≤ 10) := by
  unfold TrendAnalyzer.determineTrendDirection
  split_ifs with h1 h2 <;> simp_all

/-- C5: `analyze` uses only the 1 km radius; `recent30` is its 30-day total
and `previous30 = round((total90 − recent30)/2)`; the change is 0 when both
are 0, 100 when `previous30 = 0 < recent30`, else
`(recent30 − previous30)/previous30·100`; the direction is IMPROVING iff
change < −10, WORSENING iff change > 10, STABLE otherwise; the reported
percentage is `|change|`; the confidence is 0.9/0.7/0.5/0.3 for a combined
sample ≥20/≥10/≥5/below 5. -/
theorem claim_C5_trend (a : AggregatedIncidents) (recent30 previous30 change : ℚ)
    (hrec : recent30 = (a.radius1km.last30Days.total : ℚ))
    (hprev : previous30 =
      ((round (((a.radius1km.last90Days.total : ℚ) - recent30) / 2) : ℤ) : ℚ))
    (hch : change =
      (if recent30 = 0 ∧ previous30 = 0 then 0
       else if previous30 = 0 ∧ recent30 > 0 then 100
       else (recent30 - previous30) / previous30 * 100)) :
    (TrendAnalyzer.analyze a).recent30DayCount = a.radius1km.last30Days.total
    ∧ ((TrendAnalyzer.analyze a).previous30DayCount : ℚ) = previous30
    ∧ ((TrendAnalyzer.analyze a).direction = TrendDirection.IMPROVING ↔ change < -10)
    ∧ ((TrendAnalyzer.analyze a).direction = TrendDirection.WORSENING ↔ change > 10)
    ∧ ((TrendAnalyzer.analyze a).direction = TrendDirection.STABLE ↔
        (-10 ≤ change ∧ change ≤ 10))
    ∧ (TrendAnalyzer.analyze a).percentage = |change|
    ∧ (TrendAnalyzer.analyze a).confidence =
        (if 20 ≤ recent30 + previous30 then 9/10
         else if 10 ≤ recent30 + previous30 then 7/10
         else if 5 ≤ recent30 + previous30 then 5/10 else 3/10) := by
  subst hch hprev hrec
  set R := a.radius1km.last30Days.total with hR
  set P : ℤ := TrendAnalyzer.calculatePrevious30Days a.radius1km.last90Days.total R with hP
  have hPcast : ((round (((a.radius1km.last90Days.total : ℚ) - (R : ℚ)) / 2) : ℤ) : ℚ) =
      (P : ℚ) := rfl
  rw [hPcast]
  have hPC :
      (if (R : ℚ) = 0 ∧ (P : ℚ) = 0 then (0 : ℚ)
       else if (P : ℚ) = 0 ∧ (R : ℚ) > 0 then 100
       else ((R : ℚ) - (P : ℚ)) / (P : ℚ) * 100) =
      TrendAnalyzer.calculatePercentageChange R P := by
    unfold TrendAnalyzer.calculatePercentageChange
    by_cases hp : P = 0
    · have hpq : ((P : ℤ) : ℚ) = 0 := by exact_mod_cast hp
      by_cases hr : R = 0
      · have hrq : ((R : ℕ) : ℚ) = 0 := by exact_mod_cast hr
        rw [if_pos ⟨hrq, hpq⟩, if_pos hp, if_neg (by omega)]
      · have hrq : (0 : ℚ) < ((R : ℕ) : ℚ) := by
          exact_mod_cast Nat.pos_of_ne_zero hr
        rw [if_neg (fun hc => hr (by exact_mod_cast hc.1)), if_pos ⟨hpq, hrq⟩,
          if_pos hp, if_pos (Nat.pos_of_ne_zero hr)]
    · have hpq : ((P : ℤ) : ℚ) ≠ 0 := Int.cast_ne_zero.mpr hp
      rw [if_neg (fun hc => hpq hc.2), if_neg (fun hc => hpq hc.1), if_neg hp]
  rw [hPC]
  have hdir : (TrendAnalyzer.analyze a).direction =
      TrendAnalyzer.determineTrendDirection (TrendAnalyzer.calculatePercentageChange R P) := rfl
  have hconf : (TrendAnalyzer.analyze a).confidence =
      TrendAnalyzer.calculateConfidence R P := rfl
  refine ⟨rfl, rfl, ?_, ?_, ?_, rfl, ?_⟩
  · rw [hdir]; exact determineTrendDirection_improving _
  · rw [hdir]; exact determineTrendDirection_worsening _
  · rw [hdir]; exact determineTrendDirection_stable _
  · rw [hconf]
    unfold TrendAnalyzer.calculateConfidence
    have key20 : ((20 : ℚ) ≤ (R : ℚ) + (P : ℚ)) ↔ (20 ≤ (R : ℤ) + P) := by
      constructor <;> intro h <;> exact_mod_cast h
    have key10 : ((10 : ℚ) ≤ (R : ℚ) + (P : ℚ)) ↔ (10 ≤ (R : ℤ) + P) := by
      constructor <;> intro h <;> exact_mod_cast h
    have key5 : ((5 : ℚ) ≤ (R : ℚ) + (P : ℚ)) ↔ (5 ≤ (R : ℤ) + P) := by
      constructor <;> intro h <;> exact_mod_cast h
    by_cases c20 : 20 ≤ (R : ℤ) + P
    · rw [if_pos (show (R : ℤ) + P ≥ 20 from c20), if_pos (key20.mpr c20)]
    · rw [if_neg (show ¬(R : ℤ) + P ≥ 20 from c20), if_neg (fun h => c20 (key20.mp h))]
      by_cases c10 : 10 ≤ (R : ℤ) + P
      · rw [if_pos (show (R : ℤ) + P ≥ 10 from c10), if_pos (key10.mpr c10)]
      · rw [if_neg (show ¬(R : ℤ) + P ≥ 10 from c10), if_neg (fun h => c10 (key10.mp h))]
        by_cases c5 : 5 ≤ (R : ℤ) + P
        · rw [if_pos (show (R : ℤ) + P ≥ 5 from c5), if_pos (key5.mpr c5)]
        · rw [if_neg (show ¬(R : ℤ) + P ≥ 5 from c5), if_neg (fun h => c5 (key5.mp h))]

/-- Witness for C5: `recent30 = 20, previous30 = 10` gives change 100,
direction WORSENING, confidence 0.9, and an all-zero 1 km radius gives
change 0 and direction STABLE. -/
theorem claim_C5_trend_witness :
    (TrendAnalyzer.analyze
      ⟨⟨⟨0, fun _ => 0, 0⟩, ⟨0, fun _ => 0, 0⟩, ⟨0, fun _ => 0, 0⟩⟩,
       ⟨⟨20, fun _ => 0, 0⟩, ⟨40, fun _ => 0, 0⟩, ⟨0, fun _ => 0, 0⟩⟩,
       ⟨⟨0, fun _ => 0, 0⟩, ⟨0, fun _ => 0, 0⟩, ⟨0, fun _ => 0, 0⟩⟩⟩).direction =
      TrendDirection.WORSENING
    ∧ (TrendAnalyzer.analyze
      ⟨⟨⟨0, fun _ => 0, 0⟩, ⟨0, fun _ => 0, 0⟩, ⟨0, fun _ => 0, 0⟩⟩,
       ⟨⟨20, fun _ => 0, 0⟩, ⟨40, fun _ => 0, 0⟩, ⟨0, fun _ => 0, 0⟩⟩,
       ⟨⟨0, fun _ => 0, 0⟩, ⟨0, fun _ => 0, 0⟩, ⟨0, fun _ => 0, 0⟩⟩⟩).confidence = 9/10
    ∧ (TrendAnalyzer.analyze
      ⟨⟨⟨0, fun _ => 0, 0⟩, ⟨0, fun _ => 0, 0⟩, ⟨0, fun _ => 0, 0⟩⟩,
       ⟨⟨0, fun _ => 0, 0⟩, ⟨0, fun _ => 0, 0⟩, ⟨0, fun _ => 0, 0⟩⟩,
       ⟨⟨0, fun _ => 0, 0⟩, ⟨0, fun _ => 0, 0⟩, ⟨0, fun _ => 0, 0⟩⟩⟩).direction =
      TrendDirection.STABLE := by
  refine ⟨?_, ?_, ?_⟩
  · exact (claim_C5_trend
      ⟨⟨⟨0, fun _ => 0, 0⟩, ⟨0, fun _ => 0, 0⟩, ⟨0, fun _ => 0, 0⟩⟩,
       ⟨⟨20, fun _ => 0, 0⟩, ⟨40, fun _ => 0, 0⟩, ⟨0, fun _ => 0, 0⟩⟩,
       ⟨⟨0, fun _ => 0, 0⟩, ⟨0, fun _ => 0, 0⟩, ⟨0, fun _ => 0, 0⟩⟩⟩
      20 10 100 (by norm_num) (by norm_num) (by norm_num)).2.2.2.1.mpr (by norm_num)
  · rw [(claim_C5_trend
      ⟨⟨⟨0, fun _ => 0, 0⟩, ⟨0, fun _ => 0, 0⟩, ⟨0, fun _ => 0, 0⟩⟩,
       ⟨⟨20, fun _ => 0, 0⟩, ⟨40, fun _ => 0, 0⟩, ⟨0, fun _ => 0, 0⟩⟩,
       ⟨⟨0, fun _ => 0, 0⟩, ⟨0, fun _ => 0, 0⟩, ⟨0, fun _ => 0, 0⟩⟩⟩
      20 10 100 (by norm_num) (by norm_num) (by norm_num)).2.2.2.2.2.2]
    norm_num
  · exact (claim_C5_trend
      ⟨⟨⟨0, fun _ => 0, 0⟩, ⟨0, fun _ => 0, 0⟩, ⟨0, fun _ => 0, 0⟩⟩,
       ⟨⟨0, fun _ => 0, 0⟩, ⟨0, fun _ => 0, 0⟩, ⟨0, fun _ => 0, 0⟩⟩,
       ⟨⟨0, fun _ => 0, 0⟩, ⟨0, fun _ => 0, 0⟩, ⟨0, fun _ => 0, 0⟩⟩⟩
      0 0 0 (by norm_num) (by norm_num) (by norm_num)).2.2.2.2.1.mpr (by norm_num)

/-- C6: the percentile rank is
`round(100 · count(peer scores < score) / count(all peer scores))`, is
exactly 50 for an empty peer population, and peers `[40, 60, 80]` with own
score 70 give `round(100·2/3) = 67`. -/
theorem claim_C6_percentile (score : ℤ) (peers : List ℤ) :
    Comparator.calculatePercentileRank score peers =
      (if peers = [] then 50
       else round ((100 : ℚ) * (((peers.filter (fun p => p < score)).length : ℚ)) /
         ((peers.length : ℚ))))
    ∧ Comparator.calculatePercentileRank score [] = 50
    ∧ Comparator.calculatePercentileRank 70 [40, 60, 80] = 67 := by
  refine ⟨?_, rfl, ?_⟩
  · unfold Comparator.calculatePercentileRank
    by_cases h : peers = []
    · rw [if_pos (by simpa using congrArg List.length h), if_pos h]
    · rw [if_neg (by simpa using fun hl => h (List.length_eq_zero.mp hl)), if_neg h]
      ring_nf
  · show Comparator.calculatePercentileRank 70 [40, 60, 80] = 67
    unfold Comparator.calculatePercentileRank
    norm_num [List.filter, round_eq]

/-- C9: a non-empty peer population whose mean `overallScore` is 0 falls
through the JavaScript `|| 60` default, so both peer-average queries return
60 rather than 0. -/
theorem claim_C9_zero_average (scores : List ℤ) (hne : scores ≠ [])
    (hzero : ((scores.sum : ℚ)) / ((scores.length : ℚ)) = 0) :
    Comparator.calculateNeighborhoodAverage scores = 60
    ∧ Comparator.calculateCityAverage scores = 60 := by
  have havg : Comparator.avgOverallScore scores = some 0 := by
    unfold Comparator.avgOverallScore
    rw [if_neg hne, hzero]
  constructor
  · unfold Comparator.calculateNeighborhoodAverage
    rw [havg]
    norm_num [Comparator.jsOrElse]
  · unfold Comparator.calculateCityAverage
    rw [havg]
    norm_num [Comparator.jsOrElse]

/-- Witness for C9: the non-empty population `[0]` has mean 0 and both
averages evaluate to 60. -/
theorem claim_C9_zero_average_witness :
    Comparator.calculateNeighborhoodAverage [0] = 60
    ∧ Comparator.calculateCityAverage [0] = 60 :=
  claim_C9_zero_average [0] (by simp) (by norm_num)

theorem bulkInsertStep_skip_zero (toISO : ℤ → String)
    (store : List IncidentService.StoredIncident) (incident : GeocodedIncident)
    (h : incident.latitude = some 0 ∨ incident.longitude = some 0) :
    IncidentService.bulkInsertStep toISO store incident = (store, 0) := by
  unfold IncidentService.bulkInsertStep
  rcases h with h | h <;> simp [h, IncidentService.coordTruthy]

theorem bulkInsert_elim_skipped (toISO : ℤ → String) (incident : GeocodedIncident)
    (hstep : ∀ st, IncidentService.bulkInsertStep toISO st incident = (st, 0)) :
    ∀ (pre post : List GeocodedIncident) (store : List IncidentService.StoredIncident),
      IncidentService.bulkInsert toISO store (pre ++ incident :: post) =
        IncidentService.bulkInsert toISO store (pre ++ post) := by
  intro pre
  induction pre with
  | nil =>
    intro post store
    simp [IncidentService.bulkInsert, hstep store]
  | cons p rest ih =>
    intro post store
    simp only [List.cons_append, IncidentService.bulkInsert, List.append_eq]
    rw [ih]

/-- C10: a latitude or longitude equal to exactly 0 is treated as absent by
the JavaScript falsiness check, so the incident is skipped by `bulkInsert`:
it is neither inserted nor counted as new, and removing it from a batch
changes nothing. -/
theorem claim_C10_zero_coordinate_skipped (toISO : ℤ → String)
    (store : List IncidentService.StoredIncident) (incident : GeocodedIncident)
    (h : incident.latitude = some 0 ∨ incident.longitude = some 0) :
    IncidentService.bulkInsertStep toISO store incident = (store, 0)
    ∧ ∀ pre post : List GeocodedIncident,
        IncidentService.bulkInsert toISO store (pre ++ incident :: post) =
          IncidentService.bulkInsert toISO store (pre ++ post) := by
  refine ⟨bulkInsertStep_skip_zero toISO store incident h, fun pre post => ?_⟩
  exact bulkInsert_elim_skipped toISO incident
    (fun st => bulkInsertStep_skip_zero toISO st incident h) pre post store

/-- Witness for C10 at a concrete incident located on the equator
(latitude exactly 0, longitude nonzero). -/
theorem claim_C10_zero_coordinate_skipped_witness :
    IncidentService.bulkInsertStep (fun _ => "") []
      ⟨⟨0, IncidentType.TIROTEIO, "Centro", "Macapá", "AP", "OTT", 0⟩,
        some 0, some (-51)⟩ = ([], 0) :=
  (claim_C10_zero_coordinate_skipped (fun _ => "") []
    ⟨⟨0, IncidentType.TIROTEIO, "Centro", "Macapá", "AP", "OTT", 0⟩,
      some 0, some (-51)⟩ (Or.inl rfl)).1

theorem parseTableRows_eq_filterMap (rows : List (List String)) (now : ℤ) :
    OttParser.parseTableRows rows now =
      rows.filterMap (fun cells =>
        if 5 ≤ cells.length then OttParser.parseRow cells now else none) := by
  induction rows with
  | nil => rfl
  | cons cells rest ih =>
    rw [OttParser.parseTableRows, List.filterMap_cons]
    by_cases h5 : 5 ≤ cells.length
    · rw [if_pos h5, if_pos h5]
      cases hr : OttParser.parseRow cells now <;> simp [hr, ih]
    · rw [if_neg h5, if_neg h5, ih]

theorem parseDate_none_of_nan (dateStr : String)
    (hbad : none ∈ OttParser.dateComponents dateStr) :
    OttParser.parseDate dateStr = none := by
  obtain ⟨c0, c1, c2, c3, c4, hform⟩ : ∃ c0 c1 c2 c3 c4,
      OttParser.dateComponents dateStr = [c0, c1, c2, c3, c4] := ⟨_, _, _, _, _, rfl⟩
  unfold OttParser.parseDate
  dsimp only
  split_ifs with hstruct
  · rfl
  · rw [hform] at hbad ⊢
    simp only [List.mem_cons, List.not_mem_nil, or_false] at hbad
    rcases c0 with _ | d <;> rcases c1 with _ | m <;> rcases c2 with _ | y <;>
      rcases c3 with _ | h <;> rcases c4 with _ | mi <;> simp_all

theorem parseRow_none_of_nan (cells : List String) (now : ℤ)
    (hbad : none ∈ OttParser.dateComponents ((cells.get? 0).getD "")) :
    OttParser.parseRow cells now = none := by
  unfold OttParser.parseRow
  dsimp only
  rw [parseDate_none_of_nan _ hbad]

/-- C2 counterexample: the date cell `"32/01/25 10:00"` has day 32, out of
calendar range, yet the row is not dropped — the ECMAScript Date constructor
rolls it over to 1 Feb 2025 and `parse` returns the incident. -/
theorem claim_C2_counterexample :
    (OttParser.parse
      [⟨["Ocorrência"], [["32/01/25 10:00", "Tiroteio", "Centro", "Niterói", "RJ"]]⟩] 0).map
        (fun i => civilOfEpochMinutes i.occurredAt) = [⟨2025, 2, 1, 10, 0⟩] := by
  decide

theorem makeDay_in_range (y m d : ℤ) (hy1 : 1900 ≤ y) (hy2 : y ≤ 13000)
    (hm1 : -1 ≤ m) (hm2 : m ≤ 9999) (hd1 : 0 ≤ d) (hd2 : d ≤ 10000) :
    -1000000 ≤ makeDay y m d ∧ makeDay y m d ≤ 6000000 := by
  unfold makeDay daysFromCivil
  dsimp only
  simp only [Int.fdiv_eq_ediv _ (by norm_num : (0 : ℤ) ≤ 12),
    Int.fdiv_eq_ediv _ (by norm_num : (0 : ℤ) ≤ 400),
    Int.fdiv_eq_ediv _ (by norm_num : (0 : ℤ) ≤ 5),
    Int.fdiv_eq_ediv _ (by norm_num : (0 : ℤ) ≤ 4),
    Int.fdiv_eq_ediv _ (by norm_num : (0 : ℤ) ≤ 100)]
  have hmp1 : 0 ≤ Int.emod (m - 12 * (m / 12) + 1 + 9) 12 :=
    Int.emod_nonneg _ (by norm_num)
  have hmp2 : Int.emod (m - 12 * (m / 12) + 1 + 9) 12 < 12 :=
    Int.emod_lt_of_pos _ (by norm_num)
  split_ifs <;> constructor <;> omega

/-- C2 as amended: a tabular row whose date cell has a non-numeric component
(`NaN` after `Number` conversion) is dropped and parsing continues with the
remaining rows.  A numeric component out of calendar range does not in
itself cause a drop: for all integer components with day, year, hour and
minute in `[0, 10000]` and month in `[0, 10000]` the constructed date is
valid — rollover normalizes it, as in the `"32/01/25 10:00"` row, which
parses to 1 Feb 2025 10:00; numeric components can be rejected only as
non-finite values or when the rolled-over time value leaves the
±8.64·10^15 ms `TimeClip` range. -/
theorem claim_C2_amended_nan_drop (now : ℤ) (pre post : List (List String))
    (dateStr c2 c3 c4 c5 : String)
    (hbad : none ∈ OttParser.dateComponents dateStr) :
    OttParser.parseTableRows (pre ++ [dateStr, c2, c3, c4, c5] :: post) now =
      OttParser.parseTableRows (pre ++ post) now
    ∧ (OttParser.parseTableRows
        [["32/01/25 10:00", "Tiroteio", "Centro", "Niterói", "RJ"]] now).map
        (fun i => civilOfEpochMinutes i.occurredAt) = [⟨2025, 2, 1, 10, 0⟩]
    ∧ (∀ day month year hour minute : ℤ,
        0 ≤ day → day ≤ 10000 → 0 ≤ month → month ≤ 10000 →
        0 ≤ year → year ≤ 10000 → 0 ≤ hour → hour ≤ 10000 →
        0 ≤ minute → minute ≤ 10000 →
        jsMakeDate ((JsNumber.finite year 0).addInt 2000)
          ((JsNumber.finite month 0).addInt (-1)) (JsNumber.finite day 0)
          (JsNumber.finite hour 0) (JsNumber.finite minute 0) ≠ none) := by
  refine ⟨?_, rfl, ?_⟩
  · rw [parseTableRows_eq_filterMap, parseTableRows_eq_filterMap, List.filterMap_append,
      List.filterMap_append, List.filterMap_cons]
    rw [if_pos (by simp), parseRow_none_of_nan _ now (by simpa using hbad)]
  · intro day month year hour minute hd1 hd2 hm1 hm2 hy1 hy2 hh1 hh2 hmi1 hmi2
    have hmk := makeDay_in_range (year + 2000) (month - 1) day (by omega) (by omega)
      (by omega) (by omega) (by omega) (by omega)
    have e1 : (JsNumber.finite year 0).addInt 2000 = JsNumber.finite (year + 2000) 0 := by
      show JsNumber.finite (year + 2000 * (10 : ℤ) ^ 0) 0 = _
      norm_num
    have e2 : (JsNumber.finite month 0).addInt (-1) = JsNumber.finite (month - 1) 0 := by
      show JsNumber.finite (month + (-1) * (10 : ℤ) ^ 0) 0 = _
      norm_num
      ring_nf
    rw [e1, e2]
    have htr : ∀ x : ℤ, jsTrunc x 0 = x := by
      intro x
      unfold jsTrunc
      norm_num
    unfold jsMakeDate
    dsimp only
    rw [htr, htr, htr, htr, htr]
    rw [if_neg (show ¬(0 ≤ year + 2000 ∧ year + 2000 ≤ 99) by omega)]
    rw [if_pos (show (makeDay (year + 2000) (month - 1) day * 1440 +
      hour * 60 + minute).natAbs ≤ 144000000000 by omega)]
    exact Option.some_ne_none _

/-- Witness for C2 (amended): the concrete row whose date cell is
`"aa/11/25 14:30"` is dropped while the next row survives, and the
out-of-range components day 32, month 13, hour 99 still build a date. -/
theorem claim_C2_amended_nan_drop_witness :
    OttParser.parseTableRows
      [["aa/11/25 14:30", "Tiroteio", "Centro", "Niterói", "RJ"],
       ["03/11/25 14:30", "Tiroteio", "Centro", "Niterói", "RJ"]] 0 =
      OttParser.parseTableRows
        [["03/11/25 14:30", "Tiroteio", "Centro", "Niterói", "RJ"]] 0
    ∧ jsMakeDate ((JsNumber.finite 25 0).addInt 2000)
        ((JsNumber.finite 13 0).addInt (-1)) (JsNumber.finite 32 0)
        (JsNumber.finite 99 0) (JsNumber.finite 0 0) ≠ none := by
  constructor
  · have h := (claim_C2_amended_nan_drop 0 []
      [["03/11/25 14:30", "Tiroteio", "Centro", "Niterói", "RJ"]]
      "aa/11/25 14:30" "Tiroteio" "Centro" "Niterói" "RJ" (by decide)).1
    simpa using h
  · exact (claim_C2_amended_nan_drop 0 []
      [["03/11/25 14:30", "Tiroteio", "Centro", "Niterói", "RJ"]]
      "aa/11/25 14:30" "Tiroteio" "Centro" "Niterói" "RJ" (by decide)).2.2
      32 13 25 99 0 (by norm_num) (by norm_num) (by norm_num) (by norm_num)
      (by norm_num) (by norm_num) (by norm_num) (by norm_num) (by norm_num)
      (by norm_num)

/-! ## Lemmas toward C1 (ingestion idempotence) -/

theorem hasKey_append_single (store : List IncidentService.StoredIncident)
    (r : IncidentService.StoredIncident) (s id : String) :
    IncidentService.hasKey (store ++ [r]) s id =
      (IncidentService.hasKey store s id || (r.source = s && r.sourceId = id)) := by
  unfold IncidentService.hasKey
  rw [List.any_append]
  simp

theorem bulkInsertStep_store_cases (toISO : ℤ → String)
    (store : List IncidentService.StoredIncident) (incident : GeocodedIncident) :
    (IncidentService.bulkInsertStep toISO store incident).1 = store ∨
    ∃ r : IncidentService.StoredIncident,
      (IncidentService.bulkInsertStep toISO store incident).1 = store ++ [r] ∧
      r.source = incident.source ∧
      r.sourceId = IncidentService.generateSourceId toISO incident := by
  unfold IncidentService.bulkInsertStep
  dsimp only
  split_ifs with hc hk
  · exact Or.inl rfl
  · exact Or.inr ⟨_, rfl, rfl, rfl⟩
  · exact Or.inl rfl

theorem bulkInsertStep_hasKey_mono (toISO : ℤ → String)
    (store : List IncidentService.StoredIncident) (incident : GeocodedIncident)
    (s id : String) (h : IncidentService.hasKey store s id = true) :
    IncidentService.hasKey (IncidentService.bulkInsertStep toISO store incident).1 s id
      = true := by
  rcases bulkInsertStep_store_cases toISO store incident with hs | ⟨r, hs, _, _⟩ <;>
    rw [hs]
  · exact h
  · rw [hasKey_append_single, h, Bool.true_or]

theorem bulkInsert_hasKey_mono (toISO : ℤ → String) (incidents : List GeocodedIncident) :
    ∀ (store : List IncidentService.StoredIncident) (s id : String),
      IncidentService.hasKey store s id = true →
      IncidentService.hasKey (IncidentService.bulkInsert toISO store incidents).1 s id
        = true := by
  induction incidents with
  | nil => intro store s id h; exact h
  | cons incident rest ih =>
    intro store s id h
    exact ih _ s id (bulkInsertStep_hasKey_mono toISO store incident s id h)

theorem bulkInsertStep_ensures_key (toISO : ℤ → String)
    (store : List IncidentService.StoredIncident) (incident : GeocodedIncident)
    (hc : (IncidentService.coordTruthy incident.latitude &&
      IncidentService.coordTruthy incident.longitude) = true) :
    IncidentService.hasKey (IncidentService.bulkInsertStep toISO store incident).1
      incident.source (IncidentService.generateSourceId toISO incident) = true := by
  unfold IncidentService.bulkInsertStep
  rw [if_pos hc]
  by_cases hk : IncidentService.hasKey store incident.source
      (IncidentService.generateSourceId toISO incident) = true
  · rw [if_pos hk]
    exact hk
  · rw [if_neg hk]
    simp only [hasKey_append_single]
    simp

theorem bulkInsert_ensures_keys (toISO : ℤ → String) (incidents : List GeocodedIncident) :
    ∀ (store : List IncidentService.StoredIncident) (incident : GeocodedIncident),
      incident ∈ incidents →
      (IncidentService.coordTruthy incident.latitude &&
        IncidentService.coordTruthy incident.longitude) = true →
      IncidentService.hasKey (IncidentService.bulkInsert toISO store incidents).1
        incident.source (IncidentService.generateSourceId toISO incident) = true := by
  induction incidents with
  | nil => intro _ _ hmem; exact absurd hmem (List.not_mem_nil _)
  | cons head rest ih =>
    intro store incident hmem hc
    rcases List.mem_cons.mp hmem with heq | hmem'
    · subst heq
      exact bulkInsert_hasKey_mono toISO rest _ _ _
        (bulkInsertStep_ensures_key toISO store incident hc)
    · exact ih _ incident hmem' hc

theorem bulkInsertStep_snd (toISO : ℤ → String)
    (store : List IncidentService.StoredIncident) (incident : GeocodedIncident) :
    (IncidentService.bulkInsertStep toISO store incident).2 =
      (if (IncidentService.coordTruthy incident.latitude &&
        IncidentService.coordTruthy incident.longitude) = true then 1 else 0) := by
  unfold IncidentService.bulkInsertStep
  dsimp only
  split_ifs <;> rfl

/-- `insertedCount++` runs after the no-op-on-conflict insert, so the count
returned by `bulkInsert` is the number of coordinate-bearing incidents in
the batch — independent of what the store already contains. -/
theorem bulkInsert_count (toISO : ℤ → String) (incidents : List GeocodedIncident) :
    ∀ store : List IncidentService.StoredIncident,
      (IncidentService.bulkInsert toISO store incidents).2 =
        (incidents.filter (fun incident =>
          IncidentService.coordTruthy incident.latitude &&
            IncidentService.coordTruthy incident.longitude)).length := by
  induction incidents with
  | nil => intro store; rfl
  | cons incident rest ih =>
    intro store
    show ((IncidentService.bulkInsert toISO
        (IncidentService.bulkInsertStep toISO store incident).1 rest).1,
      (IncidentService.bulkInsertStep toISO store incident).2 +
        (IncidentService.bulkInsert toISO
          (IncidentService.bulkInsertStep toISO store incident).1 rest).2).2 = _
    rw [List.filter_cons]
    by_cases hc : (IncidentService.coordTruthy incident.latitude &&
        IncidentService.coordTruthy incident.longitude) = true
    · rw [if_pos hc]
      dsimp only
      rw [bulkInsertStep_snd, if_pos hc, ih]
      simp [Nat.add_comm]
    · rw [if_neg hc]
      dsimp only
      rw [bulkInsertStep_snd, if_neg hc, ih]
      simp

theorem bulkInsert_store_unchanged (toISO : ℤ → String)
    (incidents : List GeocodedIncident) :
    ∀ store : List IncidentService.StoredIncident,
      (∀ incident ∈ incidents,
        (IncidentService.coordTruthy incident.latitude &&
          IncidentService.coordTruthy incident.longitude) = true →
        IncidentService.hasKey store incident.source
          (IncidentService.generateSourceId toISO incident) = true) →
      (IncidentService.bulkInsert toISO store incidents).1 = store := by
  induction incidents with
  | nil => intro store _; rfl
  | cons incident rest ih =>
    intro store hkeys
    have hstep : (IncidentService.bulkInsertStep toISO store incident).1 = store := by
      unfold IncidentService.bulkInsertStep
      dsimp only
      by_cases hc : (IncidentService.coordTruthy incident.latitude &&
          IncidentService.coordTruthy incident.longitude) = true
      · rw [if_pos hc, if_pos (hkeys incident (List.mem_cons_self _ _) hc)]
      · rw [if_neg hc]
    show (IncidentService.bulkInsert toISO
        (IncidentService.bulkInsertStep toISO store incident).1 rest).1 = store
    rw [hstep]
    exact ih store (fun i hi hc => hkeys i (List.mem_cons_of_mem _ hi) hc)

theorem parseRow_scrapedAt (cells : List String) (now1 now2 : ℤ) :
    OttParser.parseRow cells now2 =
      (OttParser.parseRow cells now1).map (fun i => { i with scrapedAt := now2 }) := by
  unfold OttParser.parseRow
  dsimp only
  cases OttParser.parseDate ((cells.get? 0).getD "") <;>
    [rfl; cases OttParser.parseIncidentType ((cells.get? 1).getD "") <;> rfl]

theorem parseTableRows_scrapedAt (rows : List (List String)) (now1 now2 : ℤ) :
    OttParser.parseTableRows rows now2 =
      (OttParser.parseTableRows rows now1).map (fun i => { i with scrapedAt := now2 }) := by
  rw [parseTableRows_eq_filterMap, parseTableRows_eq_filterMap, List.map_filterMap]
  apply List.filterMap_congr
  intro cells _
  by_cases h5 : 5 ≤ cells.length
  · rw [if_pos h5, if_pos h5, parseRow_scrapedAt cells now1 now2]
  · rw [if_neg h5, if_neg h5]
    rfl

theorem parse_scrapedAt (tables : List HtmlTable) (now1 now2 : ℤ) :
    OttParser.parse tables now2 =
      (OttParser.parse tables now1).map (fun i => { i with scrapedAt := now2 }) := by
  induction tables with
  | nil => rfl
  | cons t rest ih =>
    rw [OttParser.parse, OttParser.parse]
    by_cases hm : OttParser.tableMatches t
    · rw [if_pos hm, if_pos hm, List.map_append, ih, parseTableRows_scrapedAt t.rows now1 now2]
    · rw [if_neg hm, if_neg hm, ih]

theorem batchGeocode_scrapedAt (geo : String → String → String → Option (ℚ × ℚ))
    (incidents : List RawIncident) (n : ℤ) :
    batchGeocode geo (incidents.map (fun i => { i with scrapedAt := n })) =
      (batchGeocode geo incidents).map (fun g => { g with scrapedAt := n }) := by
  unfold batchGeocode
  rw [List.map_map, List.map_map]
  apply List.map_congr_left
  intro i _
  dsimp only [Function.comp]
  cases geo i.neighborhood i.municipality i.state <;> rfl

/-! ## Lemmas toward C7 (sourceId key determinism) -/

theorem char_toNat_ofNat_valid {n : ℕ} (h : n.isValidChar) : (Char.ofNat n).toNat = n := by
  unfold Char.ofNat
  rw [dif_pos h]
  rfl

theorem isValidChar_lowerCode {n : ℕ} (h : n.isValidChar) : (lowerCode n).isValidChar := by
  unfold lowerCode
  split_ifs with h1 h2
  · exact Or.inl (by omega)
  · exact Or.inl (by omega)
  · exact h

theorem toNat_jsToLowerChar (c : Char) : (jsToLowerChar c).toNat = lowerCode c.toNat :=
  char_toNat_ofNat_valid (isValidChar_lowerCode c.valid)

theorem jsIsWsCode_lowerCode (n : ℕ) : jsIsWsCode (lowerCode n) = jsIsWsCode n := by
  unfold lowerCode
  split_ifs with h1 h2
  · have e1 : jsIsWsCode (n + 32) = false := by
      unfold jsIsWsCode
      simp only [Bool.or_eq_false_iff, decide_eq_false_iff_not]
      omega
    have e2 : jsIsWsCode n = false := by
      unfold jsIsWsCode
      simp only [Bool.or_eq_false_iff, decide_eq_false_iff_not]
      omega
    rw [e1, e2]
  · obtain ⟨hl, hu, hne⟩ := h2
    have e1 : jsIsWsCode (n + 32) = false := by
      unfold jsIsWsCode
      simp only [Bool.or_eq_false_iff, decide_eq_false_iff_not]
      omega
    have e2 : jsIsWsCode n = false := by
      unfold jsIsWsCode
      simp only [Bool.or_eq_false_iff, decide_eq_false_iff_not]
      omega
    rw [e1, e2]
  · rfl

theorem jsIsWhitespace_jsToLowerChar (c : Char) :
    jsIsWhitespace (jsToLowerChar c) = jsIsWhitespace c := by
  unfold jsIsWhitespace
  rw [toNat_jsToLowerChar, jsIsWsCode_lowerCode]

theorem collapseWs_flag_irrel (cs : List Char)
    (hcs : ∀ c, cs.head? = some c → jsIsWhitespace c = false) (b b' : Bool) :
    IncidentService.collapseWs cs b = IncidentService.collapseWs cs b' := by
  cases cs with
  | nil => rfl
  | cons c rest =>
    have hc := hcs c rfl
    simp [IncidentService.collapseWs, hc]

theorem collapseWs_ws_run_true (r : List Char)
    (hr : ∀ c ∈ r, jsIsWhitespace c = true) (cs : List Char) :
    IncidentService.collapseWs (r ++ cs) true = IncidentService.collapseWs cs true := by
  induction r with
  | nil => rfl
  | cons c rest ih =>
    rw [List.cons_append]
    have hc := hr c (List.mem_cons_self c rest)
    simp only [IncidentService.collapseWs, hc, if_true]
    exact ih (fun a ha => hr a (List.mem_cons_of_mem c ha))

theorem collapseWs_ws_run_false (r : List Char) (hne : r ≠ [])
    (hr : ∀ c ∈ r, jsIsWhitespace c = true) (cs : List Char) :
    IncidentService.collapseWs (r ++ cs) false =
      '-' :: IncidentService.collapseWs cs true := by
  cases r with
  | nil => exact absurd rfl hne
  | cons c rest =>
    rw [List.cons_append]
    have hc := hr c (List.mem_cons_self c rest)
    simp only [IncidentService.collapseWs, hc, if_true, Bool.false_eq_true, if_false]
    rw [collapseWs_ws_run_true rest (fun a ha => hr a (List.mem_cons_of_mem c ha)) cs]

/-- Two character lists are casing/whitespace variants of each other: they
decompose into the same sequence of non-whitespace characters equal up to
`toLowerCase` and of nonempty (maximal) whitespace runs. -/
inductive WsCaseVariant : List Char → List Char → Prop where
  | nil : WsCaseVariant [] []
  | char (c d : Char) (cs ds : List Char)
      (hc : jsIsWhitespace c = false) (hd : jsIsWhitespace d = false)
      (he : jsToLowerChar c = jsToLowerChar d)
      (h : WsCaseVariant cs ds) : WsCaseVariant (c :: cs) (d :: ds)
  | ws (r1 r2 cs ds : List Char)
      (hr1ne : r1 ≠ []) (hr2ne : r2 ≠ [])
      (hr1 : ∀ c ∈ r1, jsIsWhitespace c = true)
      (hr2 : ∀ c ∈ r2, jsIsWhitespace c = true)
      (hcs : ∀ c, cs.head? = some c → jsIsWhitespace c = false)
      (hds : ∀ c, ds.head? = some c → jsIsWhitespace c = false)
      (h : WsCaseVariant cs ds) : WsCaseVariant (r1 ++ cs) (r2 ++ ds)

theorem wsCaseVariant_refl (xs : List Char) : WsCaseVariant xs xs := by
  have main : ∀ n (ys : List Char), ys.length ≤ n → WsCaseVariant ys ys := by
    intro n
    induction n with
    | zero =>
      intro ys hlen
      rw [List.eq_nil_of_length_eq_zero (Nat.le_zero.mp hlen)]
      exact WsCaseVariant.nil
    | succ n ih =>
      intro ys hlen
      cases ys with
      | nil => exact WsCaseVariant.nil
      | cons c rest =>
        by_cases hws : jsIsWhitespace c = true
        · have hdecomp := List.takeWhile_append_dropWhile (p := jsIsWhitespace)
            (l := c :: rest)
          have hrne : (c :: rest).takeWhile jsIsWhitespace ≠ [] := by
            rw [List.takeWhile_cons, if_pos hws]
            exact List.cons_ne_nil _ _
          have hr : ∀ a ∈ (c :: rest).takeWhile jsIsWhitespace, jsIsWhitespace a = true :=
            fun a ha => List.mem_takeWhile_imp ha
          have hhead : ∀ a, ((c :: rest).dropWhile jsIsWhitespace).head? = some a →
              jsIsWhitespace a = false := by
            intro a ha
            have := List.head?_dropWhile_not jsIsWhitespace (c :: rest)
            rw [ha] at this
            simpa using this
          have hlen' : ((c :: rest).dropWhile jsIsWhitespace).length ≤ n := by
            rw [List.dropWhile_cons, if_pos hws]
            have := (List.dropWhile_sublist (l := rest) jsIsWhitespace).length_le
            simp only [List.length_cons] at hlen
            omega
          have hsub := WsCaseVariant.ws _ _ _ _ hrne hrne hr hr hhead hhead
            (ih _ hlen')
          rw [hdecomp] at hsub
          exact hsub
        · have hws' : jsIsWhitespace c = false := by
            cases h : jsIsWhitespace c
            · rfl
            · exact absurd h hws
          exact WsCaseVariant.char c c rest rest hws' hws' rfl
            (ih rest (by simp only [List.length_cons] at hlen; omega))
  exact main xs.length xs le_rfl

theorem wsCaseVariant_append {xs ys xs' ys' : List Char}
    (h : WsCaseVariant xs ys) (h' : WsCaseVariant xs' ys')
    (hx : ∀ c, xs'.head? = some c → jsIsWhitespace c = false)
    (hy : ∀ c, ys'.head? = some c → jsIsWhitespace c = false) :
    WsCaseVariant (xs ++ xs') (ys ++ ys') := by
  induction h with
  | nil => exact h'
  | char c d cs ds hc hd he _ ih =>
    exact WsCaseVariant.char c d _ _ hc hd he ih
  | ws r1 r2 cs ds hr1ne hr2ne hr1 hr2 hcs hds _ ih =>
    rw [List.append_assoc, List.append_assoc]
    refine WsCaseVariant.ws r1 r2 (cs ++ xs') (ds ++ ys') hr1ne hr2ne hr1 hr2 ?_ ?_ ih
    · intro a ha
      cases cs with
      | nil => exact hx a (by simpa using ha)
      | cons c0 cs0 =>
        have : c0 = a := by simpa using ha
        exact this ▸ hcs c0 rfl
    · intro a ha
      cases ds with
      | nil => exact hy a (by simpa using ha)
      | cons d0 ds0 =>
        have : d0 = a := by simpa using ha
        exact this ▸ hds d0 rfl

theorem collapseWs_map_lower_congr {xs ys : List Char} (h : WsCaseVariant xs ys) :
    ∀ b, IncidentService.collapseWs (xs.map jsToLowerChar) b =
      IncidentService.collapseWs (ys.map jsToLowerChar) b := by
  induction h with
  | nil => intro b; rfl
  | char c d cs ds hc hd he _ ih =>
    intro b
    rw [List.map_cons, List.map_cons]
    have hc' : jsIsWhitespace (jsToLowerChar c) = false := by
      rw [jsIsWhitespace_jsToLowerChar]; exact hc
    have hd' : jsIsWhitespace (jsToLowerChar d) = false := by
      rw [jsIsWhitespace_jsToLowerChar]; exact hd
    simp only [IncidentService.collapseWs, hc', hd', Bool.false_eq_true, if_false]
    rw [he, ih false]
  | ws r1 r2 cs ds hr1ne hr2ne hr1 hr2 hcs hds _ ih =>
    intro b
    rw [List.map_append, List.map_append]
    have hr1' : ∀ a ∈ r1.map jsToLowerChar, jsIsWhitespace a = true := by
      intro a ha
      obtain ⟨a0, ha0, rfl⟩ := List.mem_map.mp ha
      rw [jsIsWhitespace_jsToLowerChar]
      exact hr1 a0 ha0
    have hr2' : ∀ a ∈ r2.map jsToLowerChar, jsIsWhitespace a = true := by
      intro a ha
      obtain ⟨a0, ha0, rfl⟩ := List.mem_map.mp ha
      rw [jsIsWhitespace_jsToLowerChar]
      exact hr2 a0 ha0
    have hr1ne' : r1.map jsToLowerChar ≠ [] := by
      simpa using hr1ne
    have hr2ne' : r2.map jsToLowerChar ≠ [] := by
      simpa using hr2ne
    cases b
    · rw [collapseWs_ws_run_false _ hr1ne' hr1', collapseWs_ws_run_false _ hr2ne' hr2',
        ih true]
    · rw [collapseWs_ws_run_true _ hr1', collapseWs_ws_run_true _ hr2', ih true]

/-- C7: `generateSourceId` depends only on `occurredAt`, `municipality`,
`neighborhood` and `incidentType`, and is invariant under changes of letter
casing and of the amount/kind of whitespace in the text fields: the key is
built by joining the fields, lowercasing, mapping whitespace runs to hyphens
and stripping the remaining characters outside `[a-z0-9-_]`. -/
theorem claim_C7_sourceId_deterministic (toISO : ℤ → String) (i1 i2 : GeocodedIncident)
    (ht : i1.occurredAt = i2.occurredAt)
    (hty : i1.incidentType = i2.incidentType)
    (hm : WsCaseVariant i1.municipality.data i2.municipality.data)
    (hn : WsCaseVariant i1.neighborhood.data i2.neighborhood.data) :
    IncidentService.generateSourceId toISO i1 = IncidentService.generateSourceId toISO i2 := by
  have hjoin : WsCaseVariant
      (toISO i1.occurredAt ++ "_" ++ i1.municipality ++ "_" ++ i1.neighborhood ++ "_" ++
        IncidentService.incidentTypeString i1.incidentType).data
      (toISO i2.occurredAt ++ "_" ++ i2.municipality ++ "_" ++ i2.neighborhood ++ "_" ++
        IncidentService.incidentTypeString i2.incidentType).data := by
    rw [ht, hty]
    simp only [String.data_append, List.append_assoc, List.singleton_append]
    have hunder : ∀ zs : List Char, (∀ c, ('_' :: zs).head? = some c →
        jsIsWhitespace c = false) := by
      intro zs c hc
      have : '_' = c := by simpa using hc
      subst this
      decide
    refine wsCaseVariant_append (wsCaseVariant_refl _) ?_ (hunder _) (hunder _)
    refine WsCaseVariant.char '_' '_' _ _ (by decide) (by decide) rfl ?_
    refine wsCaseVariant_append hm ?_ (hunder _) (hunder _)
    refine WsCaseVariant.char '_' '_' _ _ (by decide) (by decide) rfl ?_
    refine wsCaseVariant_append hn ?_ (hunder _) (hunder _)
    refine WsCaseVariant.char '_' '_' _ _ (by decide) (by decide) rfl ?_
    exact wsCaseVariant_refl _
  unfold IncidentService.generateSourceId
  dsimp only
  rw [collapseWs_map_lower_congr hjoin false]

/-- Witness for C7: the municipalities `"a b"` and `"A  B"` differ only in
casing and in the width of one whitespace run, and produce the same
sourceId. -/
theorem claim_C7_sourceId_deterministic_witness :
    IncidentService.generateSourceId (fun _ => "2025-11-03T14:30:00.000Z")
      ⟨⟨100, IncidentType.TIROTEIO, "x", "a b", "RJ", "OTT", 0⟩, none, none⟩ =
    IncidentService.generateSourceId (fun _ => "2025-11-03T14:30:00.000Z")
      ⟨⟨100, IncidentType.TIROTEIO, "x", "A  B", "RJ", "OTT", 0⟩, none, none⟩ := by
  have hm : WsCaseVariant "a b".data "A  B".data := by
    show WsCaseVariant ['a', ' ', 'b'] ['A', ' ', ' ', 'B']
    refine WsCaseVariant.char 'a' 'A' _ _ (by decide) (by decide) (by decide) ?_
    refine WsCaseVariant.ws [' '] [' ', ' '] ['b'] ['B'] (by simp) (by simp)
      (by decide) (by decide) ?_ ?_ ?_
    · intro c hc
      have : 'b' = c := by simpa using hc
      subst this
      decide
    · intro c hc
      have : 'B' = c := by simpa using hc
      subst this
      decide
    · exact WsCaseVariant.char 'b' 'B' [] [] (by decide) (by decide) (by decide)
        WsCaseVariant.nil
  exact claim_C7_sourceId_deterministic (fun _ => "2025-11-03T14:30:00.000Z")
    ⟨⟨100, IncidentType.TIROTEIO, "x", "a b", "RJ", "OTT", 0⟩, none, none⟩
    ⟨⟨100, IncidentType.TIROTEIO, "x", "A  B", "RJ", "OTT", 0⟩, none, none⟩
    rfl rfl hm (wsCaseVariant_refl _)

/-- C1 (code bug): re-running the data path of an ingestion (parse, geocode,
bulk insert) on the identical payload over the store produced by the first
run leaves the store — hence its incident count — unchanged, because every
key is already present and the insert is a no-op on that conflict; but
`recordsNew` on the second run is NOT 0: `insertedCount++` runs
unconditionally after the `ON CONFLICT DO NOTHING` insert (which raises no
error), so the second run reports the number of coordinate-bearing
incidents.  At the concrete payload with one valid row and a resolving
geocoder, the second run over the store holding that row reports
`recordsNew = 1` while the store keeps exactly 1 incident. -/
theorem claim_C1_duplicate_count_bug (toISO : ℤ → String)
    (geo : String → String → String → Option (ℚ × ℚ))
    (store0 : List IncidentService.StoredIncident) (tables : List HtmlTable)
    (now1 now2 : ℤ) :
    (runIngest toISO geo (runIngest toISO geo store0 tables now1).1 tables now2).1 =
        (runIngest toISO geo store0 tables now1).1
    ∧ (runIngest toISO geo (runIngest toISO geo store0 tables now1).1 tables now2).2.2 =
        ((batchGeocode geo (OttParser.parse tables now2)).filter (fun g =>
          IncidentService.coordTruthy g.latitude &&
            IncidentService.coordTruthy g.longitude)).length
    ∧ (runIngest (fun _ => "t") (fun _ _ _ => some (1, 2))
        (runIngest (fun _ => "t") (fun _ _ _ => some (1, 2)) []
          [⟨["Ocorrência"], [["03/11/25 14:30", "Tiroteio", "Icaraí", "Niterói", "RJ"]]⟩] 0).1
        [⟨["Ocorrência"], [["03/11/25 14:30", "Tiroteio", "Icaraí", "Niterói", "RJ"]]⟩]
        1).2.2 = 1
    ∧ (runIngest (fun _ => "t") (fun _ _ _ => some (1, 2))
        (runIngest (fun _ => "t") (fun _ _ _ => some (1, 2)) []
          [⟨["Ocorrência"], [["03/11/25 14:30", "Tiroteio", "Icaraí", "Niterói", "RJ"]]⟩] 0).1
        [⟨["Ocorrência"], [["03/11/25 14:30", "Tiroteio", "Icaraí", "Niterói", "RJ"]]⟩]
        1).1.length = 1 := by
  have hraw2 : OttParser.parse tables now2 =
      (OttParser.parse tables now1).map (fun i => { i with scrapedAt := now2 }) :=
    parse_scrapedAt tables now1 now2
  have hgeo2 : batchGeocode geo (OttParser.parse tables now2) =
      (batchGeocode geo (OttParser.parse tables now1)).map
        (fun g => { g with scrapedAt := now2 }) := by
    rw [hraw2, batchGeocode_scrapedAt]
  have hstore1 : (runIngest toISO geo store0 tables now1).1 =
      (IncidentService.bulkInsert toISO store0
        (batchGeocode geo (OttParser.parse tables now1))).1 := rfl
  have hkeys : ∀ incident ∈ (batchGeocode geo (OttParser.parse tables now1)).map
      (fun g => { g with scrapedAt := now2 }),
      (IncidentService.coordTruthy incident.latitude &&
        IncidentService.coordTruthy incident.longitude) = true →
      IncidentService.hasKey (runIngest toISO geo store0 tables now1).1
        incident.source (IncidentService.generateSourceId toISO incident) = true := by
    intro incident hmem hc
    obtain ⟨g, hg, hgi⟩ := List.mem_map.mp hmem
    subst hgi
    rw [hstore1]
    exact bulkInsert_ensures_keys toISO _ store0 g hg hc
  refine ⟨?_, ?_, by decide, by decide⟩
  · show (IncidentService.bulkInsert toISO (runIngest toISO geo store0 tables now1).1
      (batchGeocode geo (OttParser.parse tables now2))).1 =
      (runIngest toISO geo store0 tables now1).1
    rw [hgeo2]
    exact bulkInsert_store_unchanged toISO _ _ hkeys
  · show (IncidentService.bulkInsert toISO (runIngest toISO geo store0 tables now1).1
      (batchGeocode geo (OttParser.parse tables now2))).2 = _
    exact bulkInsert_count toISO _ _

end SafePlace
